import Mathlib

/-!
Verification of the virtual memory management engine in src/vmm.c.

The C program is embedded shallowly: each C function becomes a Lean
definition of the same name, machine integers become Nat (with explicit
mod 2 to the relevant power where C truncation or wraparound matters),
and int32 page-table cells become Int with explicit conversions
between unsigned and signed readings.  Fatal aborts (exit on a short backing-store read) become
Option, with none standing for process abort.  Memory returned by malloc
is indeterminate, so every initializer takes the pre-existing contents as
an explicit function parameter; code that never reads unwritten cells is
insensitive to it.
-/

namespace VMM

/-- Result of a page-table lookup, mirroring the C enum PAGE_RESULT. -/
inductive PAGE_RESULT where
  | PAGE_FAULT
  | PAGE_SUCCESS
deriving DecidableEq, Repr

/-- Result of a TLB lookup, mirroring the C enum TLB_RESULT. -/
inductive TLB_RESULT where
  | TLB_MISS
  | TLB_HIT
deriving DecidableEq, Repr

open PAGE_RESULT TLB_RESULT

/-- Decomposed virtual address, mirroring the C struct virtualmem_t:
an 8-bit page number and an 8-bit offset. -/
structure virtualmem_t where
  page : Nat
  offset : Nat
deriving DecidableEq, Repr

/-- Conversion of a Nat (a C uint32 value) into the Int held by an
int32_t cell, as the C assignment g_pmt[page] = frame performs:
reduce mod 2 to the 32 and reinterpret as a signed 32-bit value. -/
def toInt32 (n : Nat) : Int :=
  let m : Nat := n % 2 ^ 32
  if m < 2 ^ 31 then (m : Int) else (m : Int) - 2 ^ 32

/-- Conversion of an int32_t cell value back to the Nat a C uint32
read of it yields (the cast in pmt_get returning uint32_t). -/
def toUInt32 (v : Int) : Nat := (v % (2 ^ 32 : Int)).toNat

/-- page_offset in src/vmm.c lines 456-467: eax is the 32-bit address,
ax its low 16 bits, ah the high byte of ax, al the low byte. -/
def page_offset (addr : Nat) : virtualmem_t :=
  let eax := addr % 2 ^ 32
  let ax := eax &&& 0xFFFF
  let ah := ax >>> 8
  let al := ax &&& 0xFF
  { page := ah, offset := al }

/-- One TLB slot, mirroring the C struct tlb_t: an 8-bit page tag and a
32-bit frame base. -/
structure tlb_t where
  page : Nat
  frame : Nat
deriving DecidableEq, Repr

/-- The TLB: its slot count TLB_SIZE and the slot array g_tlb. -/
structure TLB where
  size : Nat
  slots : Nat → tlb_t

/-- hashCode in src/vmm.c line 404: key mod TLB_SIZE. -/
def hashCode (size key : Nat) : Nat := key % size

/-- init_tlb in src/vmm.c lines 408-423: every slot gets page = -1 and
frame = -1.  The page field is a uint8_t, so -1 stores 255; the frame
field is a uint32_t, so -1 stores 4294967295. -/
def init_tlb (size : Nat) : TLB :=
  { size := size, slots := fun _ => { page := 255, frame := 2 ^ 32 - 1 } }

/-- tlb_insert in src/vmm.c lines 430-434: overwrite the slot at
hashCode(page) with the pair. -/
def tlb_insert (t : TLB) (page frame : Nat) : TLB :=
  { t with slots := fun i =>
      if i = hashCode t.size page then { page := page, frame := frame }
      else t.slots i }

/-- tlb_search in src/vmm.c lines 436-439: a hit iff the slot at
hashCode(page) carries exactly this page tag. -/
def tlb_search (t : TLB) (page : Nat) : TLB_RESULT :=
  if (t.slots (hashCode t.size page)).page = page then TLB_HIT else TLB_MISS

/-- tlb_get in src/vmm.c lines 441-446: the stored frame when the tag
matches, otherwise -1 as uint32. -/
def tlb_get (t : TLB) (page : Nat) : Nat :=
  if (t.slots (hashCode t.size page)).page = page then
    (t.slots (hashCode t.size page)).frame
  else 2 ^ 32 - 1

/-- init_pmt in src/vmm.c lines 292-307: allocates entries int32 cells
but the initializing loop runs for i < size (the page size argument),
writing -1 there; cells at indices size and above keep whatever the
allocation held, given here by the junk parameter. -/
def init_pmt (entries size : Nat) (junk : Nat → Int) : Nat → Int :=
  fun i => if i < size then -1 else junk i

/-- pmt_search in src/vmm.c lines 314-317: fault iff the cell holds -1. -/
def pmt_search (pmt : Nat → Int) (page : Nat) : PAGE_RESULT :=
  if pmt page = -1 then PAGE_FAULT else PAGE_SUCCESS

/-- pmt_get in src/vmm.c lines 319-322: the int32 cell read back as a
uint32. -/
def pmt_get (pmt : Nat → Int) (page : Nat) : Nat := toUInt32 (pmt page)

/-- pmt_insert in src/vmm.c lines 324-326: store the uint32 frame into
the int32 cell. -/
def pmt_insert (pmt : Nat → Int) (page frame : Nat) : Nat → Int :=
  fun i => if i = page then toInt32 frame else pmt i

/-- Physical memory: FRAME_SIZE, FRAME_N, the byte array g_physical and
the uint8_t allocation counter g_physical_index. -/
structure Physical where
  frame_size : Nat
  frame_n : Nat
  mem : Nat → Nat
  index : Nat

/-- init_physical in src/vmm.c lines 240-251: record the geometry and
set g_physical_index = -1, which a uint8_t stores as 255.  The malloc
contents are indeterminate, given by the junk parameter. -/
def init_physical (entries size : Nat) (junk : Nat → Nat) : Physical :=
  { frame_size := size, frame_n := entries, mem := junk, index := 255 }

/-- physical_insert in src/vmm.c lines 258-262: increment the uint8_t
counter (wrapping mod 256) and memcpy size bytes to byte offset
FRAME_N * g_physical_index (a size_t product, not truncated). -/
def physical_insert (p : Physical) (data : Nat → Nat) (size : Nat) : Physical :=
  let idx := (p.index + 1) % 256
  let base := p.frame_n * idx
  { p with
    index := idx
    mem := fun j => if base ≤ j ∧ j < base + size then data (j - base) else p.mem j }

/-- physical_index in src/vmm.c lines 264-267: FRAME_N times the current
counter, truncated to uint32. -/
def physical_index (p : Physical) : Nat := (p.frame_n * p.index) % 2 ^ 32

/-- physical_value in src/vmm.c lines 269-271: the byte at an absolute
offset. -/
def physical_value (p : Physical) (addr : Nat) : Nat := p.mem addr

/-- The backing store: the length of the binary file and its bytes. -/
structure Backing where
  len : Nat
  data : Nat → Nat

/-- backingstore_get in src/vmm.c lines 357-380: seek to
offset * page_n and fread one block of page_n bytes; when the file
cannot supply a full block, fread reports fewer blocks than requested
and the process exits (modelled as none). -/
def backingstore_get (b : Backing) (offset page_n : Nat) : Option (Nat → Nat) :=
  let location := offset * page_n
  if 0 < page_n ∧ location + page_n ≤ b.len then
    some (fun i => b.data (location + i))
  else none

/-- The whole engine state: the components plus the three counters
g_pagefault, g_tlbhit and g_translated. -/
structure MMU where
  tlb : TLB
  pmt : Nat → Int
  page_n : Nat
  page_size : Nat
  phys : Physical
  backing : Backing
  g_pagefault : Nat
  g_tlbhit : Nat
  g_translated : Nat

/-- init_mmu in src/vmm.c lines 98-115: zero the counters and
initialize every component with the supplied geometry. -/
def init_mmu (store : Backing) (page_n page_size frame_n frame_size tlb_size : Nat)
    (pmtJunk : Nat → Int) (physJunk : Nat → Nat) : MMU :=
  { tlb := init_tlb tlb_size
    pmt := init_pmt page_n page_size pmtJunk
    page_n := page_n
    page_size := page_size
    phys := init_physical frame_n frame_size physJunk
    backing := store
    g_pagefault := 0
    g_tlbhit := 0
    g_translated := 0 }

/-- pmt_page_n in src/vmm.c lines 328-330: returns PAGE_N. -/
def pmt_page_n (s : MMU) : Nat := s.page_n

/-- mmu_findframe in src/vmm.c lines 157-222: TLB first (hit counts and
returns immediately), then the page table, then the fault path: count
the fault, read pmt_page_n bytes from the backing store, insert them
into physical memory, take physical_index as the frame, record it in
the page table, and in both miss paths finally cache the pair in the
TLB.  none models the fatal exit inside backingstore_get. -/
def mmu_findframe (s : MMU) (addr : Nat) : Option (MMU × Nat) :=
  let vm := page_offset addr
  match tlb_search s.tlb vm.page with
  | TLB_HIT =>
      some ({ s with g_tlbhit := s.g_tlbhit + 1 }, tlb_get s.tlb vm.page)
  | TLB_MISS =>
      match pmt_search s.pmt vm.page with
      | PAGE_SUCCESS =>
          let frame := pmt_get s.pmt vm.page
          some ({ s with tlb := tlb_insert s.tlb vm.page frame }, frame)
      | PAGE_FAULT =>
          let s1 := { s with g_pagefault := s.g_pagefault + 1 }
          match backingstore_get s1.backing vm.page (pmt_page_n s1) with
          | none => none
          | some bytes =>
              let phys := physical_insert s1.phys bytes (pmt_page_n s1)
              let frame := physical_index phys
              let s2 := { s1 with
                phys := phys
                pmt := pmt_insert s1.pmt vm.page frame }
              some ({ s2 with tlb := tlb_insert s2.tlb vm.page frame }, frame)

/-- mmu_getphysical in src/vmm.c lines 132-149: count the translation,
decompose, find the frame, and add the offset (uint32 addition). -/
def mmu_getphysical (s : MMU) (logical : Nat) : Option (MMU × Nat) :=
  let s := { s with g_translated := s.g_translated + 1 }
  let vm := page_offset logical
  match mmu_findframe s logical with
  | none => none
  | some (s1, frame) => some (s1, (frame + vm.offset) % 2 ^ 32)

/-- mmu_getvalue in src/vmm.c lines 151-154: the byte in physical
memory at the physical address. -/
def mmu_getvalue (s : MMU) (physical : Nat) : Nat :=
  physical_value s.phys physical

/-- Iterated frame allocation: physIterate p d sz k is the physical
memory after k successive physical_insert calls, the j-th (from 0)
carrying the bytes d j and length sz. -/
def physIterate (p : Physical) (d : Nat → Nat → Nat) (sz : Nat) : Nat → Physical
  | 0 => p
  | k + 1 => physical_insert (physIterate p d sz k) (d k) sz

/-- A 64 KiB backing file whose byte at i is i mod 256. -/
def store0 : Backing := { len := 65536, data := fun i => i % 256 }

/-- The engine state right after init_mmu with the default
configuration of src/main.c: 256 page entries, 256-byte pages, 256
frames, 256-byte frames, 16 TLB slots. -/
def mmu0 : MMU := init_mmu store0 256 256 256 256 16 (fun _ => 0) (fun _ => 0)

/-! Helper lemmas about the components. -/

theorem tlb_search_insert_self (t : TLB) (p f : Nat) :
    tlb_search (tlb_insert t p f) p = TLB_HIT := by
  simp [tlb_search, tlb_insert, hashCode]

theorem tlb_get_insert_self (t : TLB) (p f : Nat) :
    tlb_get (tlb_insert t p f) p = f := by
  simp [tlb_get, tlb_insert, hashCode]

theorem toUInt32_toInt32 (n : Nat) : toUInt32 (toInt32 n) = n % 2 ^ 32 := by
  unfold toUInt32 toInt32
  dsimp only
  split <;> omega

theorem pmt_get_insert_self (pmt : Nat → Int) (p f : Nat) :
    pmt_get (pmt_insert pmt p f) p = f % 2 ^ 32 := by
  simp [pmt_get, pmt_insert, toUInt32_toInt32]

theorem init_physical_index (e s : Nat) (j : Nat → Nat) :
    (init_physical e s j).index = 255 := rfl

theorem init_physical_frame_n (e s : Nat) (j : Nat → Nat) :
    (init_physical e s j).frame_n = e := rfl

theorem physIterate_frame_n (p : Physical) (d : Nat → Nat → Nat) (sz : Nat) :
    ∀ k, (physIterate p d sz k).frame_n = p.frame_n := by
  intro k
  induction k with
  | zero => rfl
  | succ k ih => simpa [physIterate, physical_insert] using ih

theorem physIterate_index (p : Physical) (d : Nat → Nat → Nat) (sz : Nat)
    (hp : p.index < 256) :
    ∀ k, (physIterate p d sz k).index = (p.index + k) % 256 := by
  intro k
  induction k with
  | zero => simp [physIterate]; omega
  | succ k ih =>
      simp only [physIterate, physical_insert, ih]
      omega

theorem and_ffff_eq_mod (a : Nat) : a &&& 0xFFFF = a % 65536 := by
  rw [show (0xFFFF : Nat) = 2 ^ 16 - 1 by norm_num, Nat.and_pow_two_sub_one_eq_mod]

theorem and_ff_eq_mod (a : Nat) : a &&& 0xFF = a % 256 := by
  rw [show (0xFF : Nat) = 2 ^ 8 - 1 by norm_num, Nat.and_pow_two_sub_one_eq_mod]

theorem mask_bit_eq (i : Nat) :
    (0xFFFF : Nat).testBit (8 + i) = (0xFF00 : Nat).testBit (8 + i) := by
  rw [show (0xFFFF : Nat) = 2 ^ 16 - 1 by norm_num, Nat.testBit_two_pow_sub_one,
      show (0xFF00 : Nat) = 255 <<< 8 by rfl, Nat.testBit_shiftLeft,
      show (255 : Nat) = 2 ^ 8 - 1 by norm_num, Nat.testBit_two_pow_sub_one]
  by_cases h : i < 8 <;> simp [h] <;> omega

theorem and_mask_shift (a : Nat) : (a &&& 0xFFFF) >>> 8 = (a &&& 0xFF00) >>> 8 := by
  apply Nat.eq_of_testBit_eq
  intro i
  rw [Nat.testBit_shiftRight, Nat.testBit_shiftRight, Nat.testBit_and, Nat.testBit_and,
      mask_bit_eq]

theorem page_offset_eq (a : Nat) :
    page_offset a = { page := a / 256 % 256, offset := a % 256 } := by
  unfold page_offset
  have e1 : a % 2 ^ 32 &&& 0xFFFF = a % 65536 := by
    rw [and_ffff_eq_mod, show (2 : Nat) ^ 32 = 4294967296 by norm_num]
    omega
  dsimp only
  rw [e1, Nat.shiftRight_eq_div_pow, and_ff_eq_mod]
  have h1 : a % 65536 / 2 ^ 8 = a / 256 % 256 := by
    rw [show (2 : Nat) ^ 8 = 256 by norm_num]
    omega
  have h2 : a % 65536 % 256 = a % 256 := by omega
  rw [h1, h2]

theorem fault_path_post (s : MMU) (addr : Nat)
    (hmiss : tlb_search s.tlb (page_offset addr).page = TLB_MISS)
    (hfault : pmt_search s.pmt (page_offset addr).page = PAGE_FAULT) :
    (mmu_findframe s addr).elim True (fun sp =>
      sp.2 = physical_index sp.1.phys ∧
      pmt_get sp.1.pmt (page_offset addr).page = sp.2 ∧
      tlb_search sp.1.tlb (page_offset addr).page = TLB_HIT ∧
      tlb_get sp.1.tlb (page_offset addr).page = sp.2 ∧
      sp.1.g_pagefault = s.g_pagefault + 1 ∧
      sp.1.g_tlbhit = s.g_tlbhit) := by
  unfold mmu_findframe
  dsimp only
  rw [hmiss, hfault]
  dsimp only [pmt_page_n]
  cases hb : backingstore_get s.backing (page_offset addr).page s.page_n with
  | none => exact trivial
  | some bytes =>
      refine ⟨rfl, ?_, tlb_search_insert_self _ _ _, tlb_get_insert_self _ _ _, rfl, rfl⟩
      rw [pmt_get_insert_self]
      unfold physical_index
      have h32 : (0 : Nat) < 2 ^ 32 := by norm_num
      exact Nat.mod_eq_of_lt (Nat.mod_lt _ h32)

theorem findframe_caches (s : MMU) (addr : Nat) :
    (mmu_findframe s addr).elim True (fun sp =>
      tlb_search sp.1.tlb (page_offset addr).page = TLB_HIT ∧
      tlb_get sp.1.tlb (page_offset addr).page = sp.2) := by
  unfold mmu_findframe
  dsimp only
  cases htlb : tlb_search s.tlb (page_offset addr).page with
  | TLB_HIT => exact ⟨htlb, rfl⟩
  | TLB_MISS =>
      cases hpmt : pmt_search s.pmt (page_offset addr).page with
      | PAGE_SUCCESS =>
          exact ⟨tlb_search_insert_self _ _ _, tlb_get_insert_self _ _ _⟩
      | PAGE_FAULT =>
          dsimp only [pmt_page_n]
          cases hb : backingstore_get s.backing (page_offset addr).page s.page_n with
          | none => exact trivial
          | some bytes =>
              exact ⟨tlb_search_insert_self _ _ _, tlb_get_insert_self _ _ _⟩

/-! Claim theorems. -/

/-- Claim C1 (code bug evidence): in the freshly initialized engine with the
default configuration, page 255 has never been translated, yet translating
logical address 0xFF00 (page 255) leaves the page-fault counter at 0 and
registers a translation-cache hit: the uint8_t slot sentinel -1 stores 255,
which collides with the valid page number 255, so the claimed first-touch
fault does not happen. -/
theorem first_touch_fault_fails_on_page_255 :
    ((mmu_getphysical mmu0 0xFF00).map fun sp =>
        (sp.1.g_pagefault, sp.1.g_tlbhit, sp.1.g_translated)) =
      some (0, 1, 1) := rfl

/-- Claim C2 (code bug evidence): immediately after init_tlb, the lookup of
page number 255 is a hit, not a miss: init_tlb writes -1 into the uint8_t
page tag of every slot, which stores 255, a valid page number, so the slot
at index 255 mod 16 matches a genuine query for page 255. -/
theorem fresh_tlb_hits_on_page_255 :
    tlb_search (init_tlb 16) 255 = TLB_HIT := rfl

/-- Claim C3: page_offset is a pure function of its argument with
page = (addr AND 0xFF00) shifted right by 8 and offset = addr AND 0xFF,
and it depends only on the low 16 bits of the address. -/
theorem decompose_page_offset_spec (addr : Nat) :
    (page_offset addr).page = (addr &&& 0xFF00) >>> 8 ∧
    (page_offset addr).offset = addr &&& 0xFF ∧
    page_offset addr = page_offset (addr % 2 ^ 16) := by
  have hff00 : (addr &&& 0xFF00) >>> 8 = addr / 256 % 256 := by
    rw [← and_mask_shift, and_ffff_eq_mod, Nat.shiftRight_eq_div_pow,
        show (2 : Nat) ^ 8 = 256 by norm_num]
    omega
  refine ⟨?_, ?_, ?_⟩
  · rw [page_offset_eq, hff00]
  · rw [page_offset_eq, and_ff_eq_mod]
  · rw [page_offset_eq, page_offset_eq, show (2 : Nat) ^ 16 = 65536 by norm_num]
    have h1 : addr % 65536 / 256 % 256 = addr / 256 % 256 := by omega
    have h2 : addr % 65536 % 256 = addr % 256 := by omega
    rw [h1, h2]

/-- Claim C5 (code bug evidence): with page_count = 256 and
page_size = 128, the fault on page 1 reads from the backing store at byte
offset 1 * 256 (page-count scaled) rather than 1 * 128 (page-size scaled):
the byte served at the resolved physical address is the store byte at
offset 256 (here 256 mod 251 = 5) and not the byte at offset 128 (here
128).  mmu_findframe passes pmt_page_n, the page-table entry count, as the
size argument of backingstore_get. -/
theorem fault_reads_page_count_bytes_not_page_size :
    ((mmu_getphysical
        (init_mmu { len := 65536, data := fun i => i % 251 } 256 128 256 256 16
          (fun _ => 0) (fun _ => 0)) 0x0100).map
      fun sp => (sp.1.g_pagefault, sp.2, physical_value sp.1.phys sp.2)) =
        some (1, 0, 5) ∧
    ({ len := 65536, data := fun i => i % 251 : Backing }).data (1 * 256) = 5 ∧
    ({ len := 65536, data := fun i => i % 251 : Backing }).data (1 * 128) = 128 := by
  exact ⟨rfl, by norm_num, by norm_num⟩

/-- Claim C6 (code bug evidence): init_pmt initializes only the first
page_size cells of the page_count-entry table (the C loop bound is the
size argument, not entries), so with page_count = 4 and page_size = 2 a
lookup of page 3 before any insert reads the indeterminate allocation
contents (modelled as 7) and reports a mapping instead of a fault. -/
theorem pmt_entry_beyond_page_size_not_initialized :
    pmt_search (init_pmt 4 2 (fun _ => 7)) 3 = PAGE_SUCCESS ∧
    pmt_search (init_pmt 4 2 (fun _ => 7)) 1 = PAGE_FAULT := ⟨rfl, rfl⟩

/-- Claim C7: if the page table maps page p, and page q with the same hash
slot (p mod slot-count = q mod slot-count, p distinct from q) is inserted
into the TLB, then the TLB lookup of p misses, and a translation of an
address with page p completes without touching the fault counter or the
hit counter, resolving through the page table. -/
theorem collision_eviction_falls_back_to_page_table (s : MMU)
    (p q frame_q addr : Nat)
    (hpq : p ≠ q)
    (hhash : p % s.tlb.size = q % s.tlb.size)
    (hpmt : pmt_search s.pmt p = PAGE_SUCCESS)
    (haddr : (page_offset addr).page = p) :
    tlb_search (tlb_insert s.tlb q frame_q) p = TLB_MISS ∧
    ((mmu_getphysical { s with tlb := tlb_insert s.tlb q frame_q } addr).map
        fun sp => (sp.1.g_pagefault, sp.1.g_tlbhit, sp.2)) =
      some (s.g_pagefault, s.g_tlbhit,
        (pmt_get s.pmt p + (page_offset addr).offset) % 2 ^ 32) := by
  have hmiss : tlb_search (tlb_insert s.tlb q frame_q) p = TLB_MISS := by
    simp [tlb_search, tlb_insert, hashCode, hhash, Ne.symm hpq]
  refine ⟨hmiss, ?_⟩
  unfold mmu_getphysical mmu_findframe
  dsimp only
  rw [haddr, hmiss, hpmt]
  rfl

/-- Claim C8: whenever a translation takes the page-fault path (TLB miss
and page-table fault in the pre-state) and completes, the page-table entry
and the TLB slot for the faulted page number both map it to the very frame
base the allocation returned. -/
theorem fault_resolution_consistent (s : MMU) (addr : Nat)
    (hmiss : tlb_search s.tlb (page_offset addr).page = TLB_MISS)
    (hfault : pmt_search s.pmt (page_offset addr).page = PAGE_FAULT) :
    (mmu_findframe s addr).elim True (fun sp =>
      pmt_get sp.1.pmt (page_offset addr).page = sp.2 ∧
      tlb_search sp.1.tlb (page_offset addr).page = TLB_HIT ∧
      tlb_get sp.1.tlb (page_offset addr).page = sp.2) := by
  have h := fault_path_post s addr hmiss hfault
  cases ho : mmu_findframe s addr with
  | none => exact trivial
  | some sp =>
      rw [ho] at h
      exact ⟨h.2.1, h.2.2.1, h.2.2.2.1⟩

/-- Witness for C8: in the default fresh engine, address 0x0100 (page 1)
misses the TLB and faults in the page table; after the fault both
structures map page 1 to the returned frame base. -/
theorem fault_resolution_consistent_witness :
    (mmu_findframe mmu0 0x0100).elim True (fun sp =>
      pmt_get sp.1.pmt (page_offset 0x0100).page = sp.2 ∧
      tlb_search sp.1.tlb (page_offset 0x0100).page = TLB_HIT ∧
      tlb_get sp.1.tlb (page_offset 0x0100).page = sp.2) :=
  fault_resolution_consistent mmu0 0x0100 rfl rfl

/-- Claim C9: whenever a translation of a logical address completes, an
immediately repeated translation of the same address completes with the
identical physical address and increments the TLB-hit counter by exactly
one. -/
theorem translate_twice_same_address_hits (s : MMU) (addr : Nat) :
    (mmu_getphysical s addr).elim True (fun sp =>
      ((mmu_getphysical sp.1 addr).map fun sp2 => (sp2.2, sp2.1.g_tlbhit)) =
        some (sp.2, sp.1.g_tlbhit + 1)) := by
  have hcache :=
    findframe_caches { s with g_translated := s.g_translated + 1 } addr
  unfold mmu_getphysical
  dsimp only
  cases hff : mmu_findframe { s with g_translated := s.g_translated + 1 } addr with
  | none => exact trivial
  | some sp =>
      obtain ⟨s1, f⟩ := sp
      rw [hff] at hcache
      dsimp only [Option.elim] at hcache ⊢
      obtain ⟨hhit, hget⟩ := hcache
      unfold mmu_findframe
      dsimp only
      rw [hhit]
      dsimp only
      rw [hget]
      rfl

/-- Witness for C7: slots = 16, pages 1 and 17 collide; with page 1 mapped
to frame 5 in the page table, inserting page 17 evicts page 1 from the
cache, and translating address 0x0100 resolves to 5 through the page table
with no new fault and no cache hit. -/
theorem collision_eviction_witness :
    tlb_search (tlb_insert (init_tlb 16) 17 9) 1 = TLB_MISS ∧
    ((mmu_getphysical
        { mmu0 with
            pmt := pmt_insert mmu0.pmt 1 5
            tlb := tlb_insert (init_tlb 16) 17 9 } 0x0100).map
      fun sp => (sp.1.g_pagefault, sp.1.g_tlbhit, sp.2)) = some (0, 0, 5) := by
  have h := collision_eviction_falls_back_to_page_table
    { mmu0 with pmt := pmt_insert mmu0.pmt 1 5 } 1 17 9 0x0100
    (by decide) rfl rfl rfl
  exact h

/-- Claim C4, counterexample: the claim quantifies over every k of at
least 0, but the 257th allocation (k = 256) with frame_count = 256 returns
frame base 0, not k times frame_count = 65536: the uint8_t allocation
counter wraps. -/
theorem frame_base_formula_fails_at_k256 :
    physical_index
        (physIterate (init_physical 256 256 (fun _ => 0)) (fun _ _ => 0) 256 257) =
      0 ∧
    (256 * 256 : Nat) ≠ 0 := by
  constructor
  · rw [physical_index,
        physIterate_index (init_physical 256 256 (fun _ => 0)) (fun _ _ => 0) 256
          (by rw [init_physical_index]; omega) 257,
        physIterate_frame_n, init_physical_index, init_physical_frame_n]
    norm_num
  · norm_num

/-- Claim C4 as amended: for every k from 0 to 255, the k-th frame
allocation since init copies the supplied bytes into the frame slot at
byte offset k times frame_count and returns the frame base
(k times frame_count) truncated to 32 bits, and whenever the translation
fault path completes it records exactly the frame base returned by the
allocation in the page table entry of the faulting page. -/
theorem frame_base_count_scaled (frame_n frame_size sz k : Nat)
    (junk : Nat → Nat) (d : Nat → Nat → Nat) (hk : k < 256) :
    physical_index
        (physIterate (init_physical frame_n frame_size junk) d sz (k + 1)) =
      frame_n * k % 2 ^ 32 ∧
    (∀ j, j < sz →
      (physIterate (init_physical frame_n frame_size junk) d sz (k + 1)).mem
        (frame_n * k + j) = d k j) ∧
    (∀ (s : MMU) (addr : Nat),
      tlb_search s.tlb (page_offset addr).page = TLB_MISS →
      pmt_search s.pmt (page_offset addr).page = PAGE_FAULT →
      (mmu_findframe s addr).elim True (fun sp =>
        sp.2 = physical_index sp.1.phys ∧
        pmt_get sp.1.pmt (page_offset addr).page = sp.2)) := by
  have hidx :=
    physIterate_index (init_physical frame_n frame_size junk) d sz
      (by rw [init_physical_index]; omega)
  have hfn := physIterate_frame_n (init_physical frame_n frame_size junk) d sz
  have hstep : ((physIterate (init_physical frame_n frame_size junk) d sz k).index
      + 1) % 256 = k := by
    rw [hidx k, init_physical_index]
    omega
  refine ⟨?_, ?_, ?_⟩
  · rw [physical_index, show physIterate (init_physical frame_n frame_size junk) d sz
        (k + 1) = physical_insert
          (physIterate (init_physical frame_n frame_size junk) d sz k) (d k) sz
        from rfl]
    unfold physical_insert
    dsimp only
    rw [hstep, hfn, init_physical_frame_n]
  · intro j hj
    rw [show physIterate (init_physical frame_n frame_size junk) d sz (k + 1)
        = physical_insert
          (physIterate (init_physical frame_n frame_size junk) d sz k) (d k) sz
        from rfl]
    unfold physical_insert
    dsimp only
    rw [hstep, hfn, init_physical_frame_n]
    rw [if_pos (by omega)]
    congr 1
    omega
  · intro s addr hmiss hfault
    have h := fault_path_post s addr hmiss hfault
    cases ho : mmu_findframe s addr with
    | none => exact trivial
    | some sp =>
        rw [ho] at h
        exact ⟨h.1, h.2.1⟩

/-- Witness for C4 as amended: frame_count 7, frame size 5, 3-byte data,
k = 3: the third allocation lands at byte offset 21 and returns base 21,
and its second byte is the supplied byte d 3 1 = 4. -/
theorem frame_base_count_scaled_witness :
    physical_index
        (physIterate (init_physical 7 5 (fun _ => 0)) (fun a b => a + b) 3 4) =
      7 * 3 % 2 ^ 32 ∧
    (physIterate (init_physical 7 5 (fun _ => 0)) (fun a b => a + b) 3 4).mem
        (7 * 3 + 1) = 4 := by
  have h := frame_base_count_scaled 7 5 3 3 (fun _ => 0) (fun a b => a + b)
    (by norm_num)
  exact ⟨h.1, h.2.1 1 (by norm_num)⟩

/-- Claim C10: the frame allocation counter is an 8-bit value initialized
to 255 (the uint8_t image of -1) and incremented mod 256 before each copy,
so after k allocations it reads (255 + k) mod 256; the 257th allocation
therefore returns the same frame base as the first, and its bytes land in
the first allocated frame, silently overwriting them. -/
theorem frame_counter_wraps_at_257 (frame_n frame_size sz : Nat)
    (junk : Nat → Nat) (d : Nat → Nat → Nat) :
    (init_physical frame_n frame_size junk).index = 255 ∧
    (∀ k, (physIterate (init_physical frame_n frame_size junk) d sz k).index
        = (255 + k) % 256) ∧
    physical_index
        (physIterate (init_physical frame_n frame_size junk) d sz 257) =
      physical_index
        (physIterate (init_physical frame_n frame_size junk) d sz 1) ∧
    (∀ j, j < sz →
      (physIterate (init_physical frame_n frame_size junk) d sz 257).mem j =
        d 256 j) := by
  have hidx :=
    physIterate_index (init_physical frame_n frame_size junk) d sz
      (by rw [init_physical_index]; omega)
  have hfn := physIterate_frame_n (init_physical frame_n frame_size junk) d sz
  have hstep : ((physIterate (init_physical frame_n frame_size junk) d sz 256).index
      + 1) % 256 = 0 := by
    rw [hidx 256, init_physical_index]
  refine ⟨init_physical_index _ _ _,
    fun k => by rw [hidx k, init_physical_index], ?_, ?_⟩
  · rw [physical_index, physical_index, hidx 257, hidx 1, hfn, hfn,
        init_physical_index]
  · intro j hj
    rw [show physIterate (init_physical frame_n frame_size junk) d sz 257
        = physical_insert
          (physIterate (init_physical frame_n frame_size junk) d sz 256) (d 256) sz
        from rfl]
    unfold physical_insert
    dsimp only
    rw [hstep]
    rw [if_pos (by omega)]
    simp

/-- Witness for C10: frame_count 256, 2-byte data blocks where block k is
filled with the value k: the 257th allocation returns the same base as the
first, and byte 0 of physical memory afterwards holds 256, the 257th
fill value of block 256, not the fill value 0 of the first block. -/
theorem frame_counter_wraps_witness :
    physical_index
        (physIterate (init_physical 256 256 (fun _ => 0)) (fun a _ => a) 2 257) =
      physical_index
        (physIterate (init_physical 256 256 (fun _ => 0)) (fun a _ => a) 2 1) ∧
    (physIterate (init_physical 256 256 (fun _ => 0)) (fun a _ => a) 2 257).mem 0 =
      256 := by
  have h := frame_counter_wraps_at_257 256 256 2 (fun _ => 0) (fun a _ => a)
  exact ⟨h.2.2.1, h.2.2.2 0 (by norm_num)⟩

end VMM
